import Mathlib

/-!
Verification development for the lws pod admission webhook
(`pkg/webhooks/pod_webhook.go`).

The Go code is shallowly embedded: Go `map[string]string` becomes an
association list, pointer-based optional substructures (`*Affinity`,
`*PodAffinity`, `*PodAntiAffinity`, `*LabelSelector`) become `Option`,
in-place mutation becomes explicit state passing, and fallible paths
return `Except String`.  Helper functions that live in other packages of
the repository (outside the webhook file) are modelled from the spec and
carry a doc comment saying so.
-/

set_option autoImplicit false

namespace LWS

/-! ## Go string maps (`map[string]string`) as association lists -/

/-- A Go `map[string]string`, embedded as an association list. -/
abbrev StrMap := List (String × String)

/-- `v, found := m[k]` with `found` reflected as `Option`. -/
def mapLookup : StrMap → String → Option String
  | [], _ => none
  | (k', v) :: rest, k => if k' = k then some v else mapLookup rest k

/-- Go map read `m[k]`: the zero value `""` when the key is absent. -/
def mapGet (m : StrMap) (k : String) : String :=
  (mapLookup m k).getD ""

/-- Go map write `m[k] = v`: replace the binding if present, else add it. -/
def mapInsert : StrMap → String → String → StrMap
  | [], k, v => [(k, v)]
  | (k', v') :: rest, k, v =>
    if k' = k then (k, v) :: rest else (k', v') :: mapInsert rest k v

/-! ## The Kubernetes API objects used by the webhook

Only the fields the webhook reads or writes are kept; each structure and
field mirrors its `k8s.io/api` counterpart. -/

/-- `metav1.LabelSelectorOperator`. -/
inductive SelectorOp where
  | opIn
  | opNotIn
  | opExists
  | opDoesNotExist
  deriving DecidableEq

/-- `metav1.LabelSelectorRequirement`. -/
structure LabelSelectorRequirement where
  key : String
  op : SelectorOp
  values : List String
  deriving DecidableEq

/-- `metav1.LabelSelector` (the webhook only builds `MatchExpressions`). -/
structure LabelSelector where
  matchLabels : StrMap := []
  matchExpressions : List LabelSelectorRequirement := []
  deriving DecidableEq

/-- `corev1.PodAffinityTerm`. -/
structure PodAffinityTerm where
  labelSelector : Option LabelSelector := none
  topologyKey : String := ""
  deriving DecidableEq

/-- `corev1.PodAffinity`. -/
structure PodAffinity where
  requiredDuringSchedulingIgnoredDuringExecution : List PodAffinityTerm := []
  deriving DecidableEq

/-- `corev1.PodAntiAffinity`. -/
structure PodAntiAffinity where
  requiredDuringSchedulingIgnoredDuringExecution : List PodAffinityTerm := []
  deriving DecidableEq

/-- `corev1.Affinity`: both substructures are pointers in Go, hence `Option`. -/
structure Affinity where
  podAffinity : Option PodAffinity := none
  podAntiAffinity : Option PodAntiAffinity := none
  deriving DecidableEq

/-- One environment variable of a container (`corev1.EnvVar`). -/
structure EnvVar where
  name : String
  value : String
  deriving DecidableEq

/-- `corev1.Container`, reduced to the part the webhook can touch (env). -/
structure Container where
  name : String := ""
  env : List EnvVar := []
  deriving DecidableEq

/-- `corev1.PodSpec`, reduced to the fields used by the webhook. -/
structure PodSpec where
  affinity : Option Affinity := none
  containers : List Container := []
  deriving DecidableEq

/-- `corev1.Pod`: metadata (name, namespace, labels, annotations) plus spec. -/
structure Pod where
  name : String := ""
  ns : String := ""
  labels : StrMap := []
  annotations : StrMap := []
  spec : PodSpec := {}
  deriving DecidableEq

/-- `runtime.Object` as the webhook sees it: either a Pod, or some other
object whose Go type name is carried for the error message. -/
inductive RuntimeObject where
  | pod (p : Pod)
  | other (typeName : String)
  deriving DecidableEq

/-! ## Label / annotation keys

Modelled from the spec: the constants live in `api/leaderworkerset/v1`,
which is not under `src/`.  Only their mutual distinctness matters to the
webhook logic; the values follow the project's naming convention. -/

/-- Modelled from the spec: the group-membership label key. -/
def SetNameLabelKey : String := "leaderworkerset.sigs.k8s.io/name"

/-- Modelled from the spec: the group index label key. -/
def GroupIndexLabelKey : String := "leaderworkerset.sigs.k8s.io/group-index"

/-- Modelled from the spec: the worker index label key. -/
def WorkerIndexLabelKey : String := "leaderworkerset.sigs.k8s.io/worker-index"

/-- Modelled from the spec: the group unique key (hash) label key. -/
def GroupUniqueHashLabelKey : String := "leaderworkerset.sigs.k8s.io/group-key"

/-- Modelled from the spec: the exclusive-placement topology key annotation. -/
def ExclusiveKeyAnnotationKey : String := "leaderworkerset.sigs.k8s.io/exclusive-topology"

/-- Modelled from the spec: the group size annotation key. -/
def SizeAnnotationKey : String := "leaderworkerset.sigs.k8s.io/size"

/-! ## Exclusive placement (`SetExclusiveAffinities`, `exclusiveAffinityApplied`)

These two functions are in the webhook file itself and are embedded
line by line. -/

/-- The required pod-affinity term appended by `SetExclusiveAffinities`:
group-key `In [groupUniqueKey]`, scoped to `topologyKey`. -/
def exclusiveAffinityTerm (groupUniqueKey topologyKey : String) : PodAffinityTerm :=
  { labelSelector := some
      { matchExpressions :=
          [{ key := GroupUniqueHashLabelKey
             op := SelectorOp.opIn
             values := [groupUniqueKey] }] }
    topologyKey := topologyKey }

/-- The required pod-anti-affinity term appended by `SetExclusiveAffinities`:
group-key `Exists` and group-key `NotIn [groupUniqueKey]`, scoped to
`topologyKey`. -/
def exclusiveAntiAffinityTerm (groupUniqueKey topologyKey : String) : PodAffinityTerm :=
  { labelSelector := some
      { matchExpressions :=
          [{ key := GroupUniqueHashLabelKey
             op := SelectorOp.opExists
             values := [] },
           { key := GroupUniqueHashLabelKey
             op := SelectorOp.opNotIn
             values := [groupUniqueKey] }] }
    topologyKey := topologyKey }

/-- `SetExclusiveAffinities(pod, groupUniqueKey)`: construct any absent
affinity substructure, then append the affinity and anti-affinity terms,
both scoped to the pod's exclusive-topology annotation value. -/
def SetExclusiveAffinities (pod : Pod) (groupUniqueKey : String) : Pod :=
  let topologyKey := mapGet pod.annotations ExclusiveKeyAnnotationKey
  let aff := pod.spec.affinity.getD {}
  let pa := aff.podAffinity.getD {}
  let paa := aff.podAntiAffinity.getD {}
  let pa' : PodAffinity :=
    { requiredDuringSchedulingIgnoredDuringExecution :=
        pa.requiredDuringSchedulingIgnoredDuringExecution ++
          [exclusiveAffinityTerm groupUniqueKey topologyKey] }
  let paa' : PodAntiAffinity :=
    { requiredDuringSchedulingIgnoredDuringExecution :=
        paa.requiredDuringSchedulingIgnoredDuringExecution ++
          [exclusiveAntiAffinityTerm groupUniqueKey topologyKey] }
  { pod with spec :=
      { pod.spec with affinity := some { podAffinity := some pa', podAntiAffinity := some paa' } } }

/-- `exclusiveAffinityApplied(pod)`: true iff some existing required
affinity term and some existing required anti-affinity term are both
scoped to the pod's exclusive-topology annotation value. -/
def exclusiveAffinityApplied (pod : Pod) : Bool :=
  match pod.spec.affinity with
  | none => false
  | some aff =>
    match aff.podAffinity, aff.podAntiAffinity with
    | some pa, some paa =>
      let topologyKey := mapGet pod.annotations ExclusiveKeyAnnotationKey
      (pa.requiredDuringSchedulingIgnoredDuringExecution.any
        fun t => t.topologyKey = topologyKey) &&
      (paa.requiredDuringSchedulingIgnoredDuringExecution.any
        fun t => t.topologyKey = topologyKey)
    | _, _ => false

/-- The exclusive-placement step of `PodWebhook.Default` (lines 116-119):
apply `SetExclusiveAffinities` only when the exclusive-topology annotation
is present and `exclusiveAffinityApplied` is false. -/
def exclusivePlacementStep (pod : Pod) (groupUniqueKey : String) : Pod :=
  match mapLookup pod.annotations ExclusiveKeyAnnotationKey with
  | some _ => if exclusiveAffinityApplied pod then pod else SetExclusiveAffinities pod groupUniqueKey
  | none => pod

/-! ## Decimal numerals -/

/-- Decimal digits of `n`, most significant first. -/
def natToDigits (n : Nat) : List Char :=
  if h : n < 10 then [Nat.digitChar n]
  else natToDigits (n / 10) ++ [Nat.digitChar (n % 10)]
  decreasing_by exact Nat.div_lt_self (by omega) (by omega)

/-- The number denoted by a list of decimal digit characters. -/
def digitsToNat (ds : List Char) : Nat :=
  ds.foldl (fun n c => 10 * n + (c.toNat - 48)) 0

/-! ## Identity assigner (`statefulsetutils.GetParentNameAndOrdinal`)

Modelled from the spec: the function lives in `pkg/utils/statefulset`, not
under `src/`.  Per the spec it takes a pod name, returns the parent name
and the integer ordinal when the name has the form
`<prefix>-<non-negative integer>`, and a not-found failure (ordinal `-1`)
otherwise.  The numeric suffix is the maximal run of digits after the
last dash of the name. -/

/-- Split a character list at its last dash: `some (before, after)`,
or `none` when no dash occurs. -/
def splitLastDash : List Char → Option (List Char × List Char)
  | [] => none
  | c :: rest =>
    match splitLastDash rest with
    | some (p, s) => some (c :: p, s)
    | none => if c = '-' then some ([], rest) else none

/-- Modelled from the spec: `GetParentNameAndOrdinal` parses
`<parent>-<k>` into `(parent, k)` and yields ordinal `-1` when the suffix
after the last dash is not a non-empty string of digits. -/
def GetParentNameAndOrdinal (name : String) : String × Int :=
  match splitLastDash name.data with
  | none => ("", -1)
  | some (p, s) =>
    if s ≠ [] ∧ s.all Char.isDigit then (String.mk p, (digitsToNat s : Int))
    else ("", -1)

/-- `fmt.Sprint` on the integer ordinal (only ever applied to values `≥ 0`
in the webhook): the decimal representation. -/
def sprintInt (i : Int) : String :=
  if i < 0 then "-" ++ Nat.repr (-i).toNat
  else Nat.repr i.toNat

/-- `strconv.Atoi`, modelled on decimal syntax: an optional sign followed
by a non-empty digit string; anything else is an error. -/
def atoi (s : String) : Except String Int :=
  match s.data with
  | '-' :: rest =>
    if rest ≠ [] ∧ rest.all Char.isDigit then Except.ok (-(digitsToNat rest : Int))
    else Except.error ("strconv.Atoi: parsing " ++ s ++ ": invalid syntax")
  | '+' :: rest =>
    if rest ≠ [] ∧ rest.all Char.isDigit then Except.ok ((digitsToNat rest : Int))
    else Except.error ("strconv.Atoi: parsing " ++ s ++ ": invalid syntax")
  | ds =>
    if ds ≠ [] ∧ ds.all Char.isDigit then Except.ok ((digitsToNat ds : Int))
    else Except.error ("strconv.Atoi: parsing " ++ s ++ ": invalid syntax")

/-! ## External helper functions of the repository

`podutils.LeaderPod`, `acceleratorutils.PodRequestsTPUs`,
`acceleratorutils.AddTPUVariables` and `utils.Sha1Hash` live in other
packages of the repository and are not under `src/`.  Modelled from the
spec: the spec fixes only their interfaces ("a structural check on pod
role"; a check on "the pod's container resource requests"; injection of
"environment variables ... into matching containers"; "a content-derived
hash"), so they are carried as parameters of the embedding, constrained
exactly as the spec constrains them (`addTPUVariables` can only produce
new containers, `podRequestsTPUs` reads only the containers). -/

structure Externals where
  leaderPod : Pod → Bool
  podRequestsTPUs : List Container → Bool
  addTPUVariables : Pod → Int → Except String (List Container)
  sha1Hash : String → String

/-- `genGroupUniqueKey(ns, podName)`: the sha1 hash of `ns ++ "/" ++ podName`. -/
def genGroupUniqueKey (h : String → String) (ns : String) (podName : String) : String :=
  h (ns ++ "/" ++ podName)

/-! ## The mutating webhook (`PodWebhook.Default`) -/

/-- The group unique key part of the leader branch (lines 107-119): set
the group key label when absent (via `genGroupUniqueKey`) or reuse its
existing value, then run the exclusive-placement step with that key. -/
def groupKeySteps (E : Externals) (p : Pod) : Pod :=
  match mapLookup p.labels GroupUniqueHashLabelKey with
  | none =>
    let k := genGroupUniqueKey E.sha1Hash p.ns p.name
    exclusivePlacementStep { p with labels := mapInsert p.labels GroupUniqueHashLabelKey k } k
  | some v => exclusivePlacementStep p v

/-- The leader branch of `Default` (lines 97-119): assign the group index
label unless present (failing on an unparsable name), then the group
unique key and exclusive-placement steps. -/
def leaderSteps (E : Externals) (pod : Pod) : Except String Pod :=
  (match mapLookup pod.labels GroupIndexLabelKey with
   | some _ => Except.ok pod
   | none =>
     let groupIndex := (GetParentNameAndOrdinal pod.name).2
     if groupIndex = -1 then
       Except.error ("parsing pod ordinal for pod " ++ pod.name)
     else
       Except.ok { pod with labels := mapInsert pod.labels GroupIndexLabelKey (sprintInt groupIndex) }
  ).bind fun p => Except.ok (groupKeySteps E p)

/-- The worker branch of `Default` (lines 120-126): parse the worker
ordinal from the pod name (failing on an unparsable name) and assign the
worker index label. -/
def workerSteps (pod : Pod) : Except String Pod :=
  let workerIndex := (GetParentNameAndOrdinal pod.name).2
  if workerIndex = -1 then
    Except.error ("parsing pod ordinal for pod " ++ pod.name)
  else
    Except.ok { pod with labels := mapInsert pod.labels WorkerIndexLabelKey (sprintInt workerIndex) }

/-- The TPU env injection step of `Default` (lines 128-141): when the pod
requests TPUs, the size annotation must be present and numeric, and the
TPU variables are added to the containers. -/
def tpuStep (E : Externals) (pod : Pod) : Except String Pod :=
  if E.podRequestsTPUs pod.spec.containers then
    match mapLookup pod.annotations SizeAnnotationKey with
    | none => Except.error ("size annotation is unexpectedly missing for pod " ++ pod.name)
    | some size =>
      match atoi size with
      | Except.error e => Except.error e
      | Except.ok podCount =>
        match E.addTPUVariables pod podCount with
        | Except.error e => Except.error e
        | Except.ok cs => Except.ok { pod with spec := { pod.spec with containers := cs } }
  else Except.ok pod

/-- The body of `PodWebhook.Default` once the object is known to be a Pod:
skip non-members, run the leader or worker branch, then TPU injection. -/
def PodWebhook.defaultPod (E : Externals) (pod : Pod) : Except String Pod :=
  match mapLookup pod.labels SetNameLabelKey with
  | none => Except.ok pod
  | some _ =>
    (if E.leaderPod pod then leaderSteps E pod else workerSteps pod).bind (tpuStep E)

/-- `PodWebhook.Default`: reject non-Pod objects, otherwise mutate the pod. -/
def PodWebhook.Default (E : Externals) (obj : RuntimeObject) : Except String RuntimeObject :=
  match obj with
  | RuntimeObject.other t => Except.error ("expected a Pod but got a " ++ t)
  | RuntimeObject.pod pod => (PodWebhook.defaultPod E pod).map RuntimeObject.pod

/-! ## The validating webhook -/

/-- The result of a validation: `(admission.Warnings, error)`, both
nilable. -/
abbrev ValidationResult := Option (List String) × Option String

/-- `PodWebhook.validate`: error on non-Pod objects; for pods, whether or
not the group-membership label is present, return nil warnings and nil
error. -/
def PodWebhook.validate : RuntimeObject → ValidationResult
  | RuntimeObject.other t => (none, some ("expected a Pod but got a " ++ t))
  | RuntimeObject.pod pod =>
    match mapLookup pod.labels SetNameLabelKey with
    | none => (none, none)
    | some _ => (none, none)

/-- `PodWebhook.ValidateCreate` delegates to `validate`. -/
def PodWebhook.ValidateCreate (obj : RuntimeObject) : ValidationResult :=
  PodWebhook.validate obj

/-- `PodWebhook.ValidateUpdate` returns nil warnings and nil error. -/
def PodWebhook.ValidateUpdate (_oldObj _newObj : RuntimeObject) : ValidationResult :=
  (none, none)

/-- `PodWebhook.ValidateDelete` returns nil warnings and nil error. -/
def PodWebhook.ValidateDelete (_obj : RuntimeObject) : ValidationResult :=
  (none, none)

/-! ## Label selector matching

The anti-affinity design claim needs the Kubernetes label-selector
semantics (`k8s.io/apimachinery/pkg/labels`): `In` requires the key to be
present with a listed value; `NotIn` is satisfied when the key is absent
or its value is not listed; `Exists` requires presence. -/

/-- One `LabelSelectorRequirement` evaluated against a label map. -/
def reqMatches (labels : StrMap) (r : LabelSelectorRequirement) : Bool :=
  match r.op with
  | SelectorOp.opIn =>
    match mapLookup labels r.key with
    | some v => r.values.contains v
    | none => false
  | SelectorOp.opNotIn =>
    match mapLookup labels r.key with
    | some v => !(r.values.contains v)
    | none => true
  | SelectorOp.opExists => (mapLookup labels r.key).isSome
  | SelectorOp.opDoesNotExist => (mapLookup labels r.key).isNone

/-- A `LabelSelector` matches a label map when all `matchLabels` pairs and
all `matchExpressions` requirements hold. -/
def selectorMatches (sel : LabelSelector) (labels : StrMap) : Bool :=
  (sel.matchLabels.all fun kv => mapLookup labels kv.1 = some kv.2) &&
  (sel.matchExpressions.all fun r => reqMatches labels r)

/-- A pod affinity term matches a target pod's labels (a nil selector
matches nothing). -/
def termMatches (t : PodAffinityTerm) (targetLabels : StrMap) : Bool :=
  match t.labelSelector with
  | none => false
  | some sel => selectorMatches sel targetLabels

/-! ## Concrete externals and pods used by witnesses and counterexamples -/

/-- A concrete instantiation of the external helpers where every pod is a
leader, no pod requests TPUs, and the hash is the identity. -/
def extLeader : Externals :=
  { leaderPod := fun _ => true
    podRequestsTPUs := fun _ => false
    addTPUVariables := fun p _ => Except.ok p.spec.containers
    sha1Hash := fun s => s }

/-- Externals where every pod is a worker. -/
def extWorker : Externals :=
  { extLeader with leaderPod := fun _ => false }

/-- Externals where every pod requests TPUs. -/
def extTPU : Externals :=
  { extLeader with podRequestsTPUs := fun _ => true }

/-- A group-member pod with an unparsable name whose group index and group
key labels are already present. -/
def podLeaderLabeled : Pod :=
  { name := "badname"
    ns := "default"
    labels := [(SetNameLabelKey, "x"), (GroupIndexLabelKey, "0"), (GroupUniqueHashLabelKey, "h")]
    annotations := [] }

/-- A group-member worker pod named `w-3` that already carries worker
index label `7`. -/
def podWorkerRelabel : Pod :=
  { name := "w-3"
    ns := "default"
    labels := [(SetNameLabelKey, "x"), (WorkerIndexLabelKey, "7")]
    annotations := [] }

/-- A fresh leader pod with the exclusive-topology annotation. -/
def podLeaderFresh : Pod :=
  { name := "sample-0"
    ns := "default"
    labels := [(SetNameLabelKey, "sample")]
    annotations := [(ExclusiveKeyAnnotationKey, "rack")] }

/-! ## Basic map lemmas -/

@[simp]
theorem mapLookup_mapInsert_self (m : StrMap) (k v : String) :
    mapLookup (mapInsert m k v) k = some v := by
  induction m with
  | nil => simp [mapInsert, mapLookup]
  | cons kv rest ih =>
    by_cases h : kv.1 = k
    · simp [mapInsert, mapLookup, h]
    · simp [mapInsert, mapLookup, h, ih]

theorem mapLookup_mapInsert_ne (m : StrMap) (k v k' : String) (h : k' ≠ k) :
    mapLookup (mapInsert m k v) k' = mapLookup m k' := by
  induction m with
  | nil =>
    simp only [mapInsert, mapLookup]
    rw [if_neg (fun e => h (Eq.symm e))]
  | cons kv rest ih =>
    by_cases hk : kv.1 = k
    · subst hk
      simp [mapInsert, mapLookup, Ne.symm h]
    · simp only [mapInsert, if_neg hk, mapLookup]
      by_cases hk' : kv.1 = k'
      · simp [hk']
      · simp [hk', ih]

/-! ## Frame lemmas for the exclusive placement functions -/

@[simp]
theorem setExclusiveAffinities_name (pod : Pod) (key : String) :
    (SetExclusiveAffinities pod key).name = pod.name := rfl

@[simp]
theorem setExclusiveAffinities_ns (pod : Pod) (key : String) :
    (SetExclusiveAffinities pod key).ns = pod.ns := rfl

@[simp]
theorem setExclusiveAffinities_labels (pod : Pod) (key : String) :
    (SetExclusiveAffinities pod key).labels = pod.labels := rfl

@[simp]
theorem setExclusiveAffinities_annotations (pod : Pod) (key : String) :
    (SetExclusiveAffinities pod key).annotations = pod.annotations := rfl

@[simp]
theorem setExclusiveAffinities_containers (pod : Pod) (key : String) :
    (SetExclusiveAffinities pod key).spec.containers = pod.spec.containers := rfl

/-- Right after `SetExclusiveAffinities`, the idempotency check holds. -/
theorem exclusiveAffinityApplied_setExclusiveAffinities (pod : Pod) (key : String) :
    exclusiveAffinityApplied (SetExclusiveAffinities pod key) = true := by
  simp [exclusiveAffinityApplied, SetExclusiveAffinities,
    exclusiveAffinityTerm, exclusiveAntiAffinityTerm]

@[simp]
theorem exclusivePlacementStep_name (pod : Pod) (key : String) :
    (exclusivePlacementStep pod key).name = pod.name := by
  unfold exclusivePlacementStep
  cases mapLookup pod.annotations ExclusiveKeyAnnotationKey <;> simp
  split <;> rfl

@[simp]
theorem exclusivePlacementStep_ns (pod : Pod) (key : String) :
    (exclusivePlacementStep pod key).ns = pod.ns := by
  unfold exclusivePlacementStep
  cases mapLookup pod.annotations ExclusiveKeyAnnotationKey <;> simp
  split <;> rfl

@[simp]
theorem exclusivePlacementStep_labels (pod : Pod) (key : String) :
    (exclusivePlacementStep pod key).labels = pod.labels := by
  unfold exclusivePlacementStep
  cases mapLookup pod.annotations ExclusiveKeyAnnotationKey <;> simp
  split <;> rfl

@[simp]
theorem exclusivePlacementStep_annotations (pod : Pod) (key : String) :
    (exclusivePlacementStep pod key).annotations = pod.annotations := by
  unfold exclusivePlacementStep
  cases mapLookup pod.annotations ExclusiveKeyAnnotationKey <;> simp
  split <;> rfl

@[simp]
theorem exclusivePlacementStep_containers (pod : Pod) (key : String) :
    (exclusivePlacementStep pod key).spec.containers = pod.spec.containers := by
  unfold exclusivePlacementStep
  cases mapLookup pod.annotations ExclusiveKeyAnnotationKey <;> simp
  split <;> rfl

/-- C1.  Applying the exclusive placement mutation (`SetExclusiveAffinities`
gated by the exclusive-topology annotation and `exclusiveAffinityApplied`)
twice in succession with the same group unique key yields exactly the state
after applying it once: the second application detects the terms already
scoped to the topology key and skips, so no duplicate term pair is added. -/
theorem exclusivePlacementStep_idem (pod : Pod) (key : String) :
    exclusivePlacementStep (exclusivePlacementStep pod key) key
      = exclusivePlacementStep pod key := by
  cases h : mapLookup pod.annotations ExclusiveKeyAnnotationKey with
  | none => simp [exclusivePlacementStep, h]
  | some v =>
    by_cases ha : exclusiveAffinityApplied pod
    · simp [exclusivePlacementStep, h, ha]
    · simp [exclusivePlacementStep, h, ha, exclusiveAffinityApplied_setExclusiveAffinities]

/-- A pod carrying no group-membership label. -/
def podPlain : Pod :=
  { name := "p", ns := "ns", labels := [], annotations := [] }

/-- C2.  `SetExclusiveAffinities` appends exactly one required pod-affinity
term (group-key `In [groupUniqueKey]`) and exactly one required pod-anti-affinity
term (group-key `Exists` and group-key `NotIn [groupUniqueKey]`), both scoped to
the topology key read from the pod's exclusive-placement annotation; and for
distinct group unique keys `A ≠ B`, the anti-affinity term built for `A` never
matches a pod labeled `A` but does match a pod labeled `B`. -/
theorem setExclusiveAffinities_terms_and_exclusion (pod : Pod) (key : String) :
    (SetExclusiveAffinities pod key).spec.affinity =
      some { podAffinity := some { requiredDuringSchedulingIgnoredDuringExecution :=
               ((pod.spec.affinity.getD {}).podAffinity.getD
                   {}).requiredDuringSchedulingIgnoredDuringExecution ++
                 [exclusiveAffinityTerm key (mapGet pod.annotations ExclusiveKeyAnnotationKey)] }
             podAntiAffinity := some { requiredDuringSchedulingIgnoredDuringExecution :=
               ((pod.spec.affinity.getD {}).podAntiAffinity.getD
                   {}).requiredDuringSchedulingIgnoredDuringExecution ++
                 [exclusiveAntiAffinityTerm key
                    (mapGet pod.annotations ExclusiveKeyAnnotationKey)] } } ∧
    (∀ (A B : String) (target : StrMap) (tk : String), A ≠ B →
      (mapLookup target GroupUniqueHashLabelKey = some A →
        termMatches (exclusiveAntiAffinityTerm A tk) target = false) ∧
      (mapLookup target GroupUniqueHashLabelKey = some B →
        termMatches (exclusiveAntiAffinityTerm A tk) target = true)) := by
  constructor
  · rfl
  · intro A B target tk hAB
    constructor
    · intro hA
      simp [termMatches, selectorMatches, reqMatches, exclusiveAntiAffinityTerm, hA]
    · intro hB
      simp only [termMatches, selectorMatches, reqMatches, exclusiveAntiAffinityTerm, hB]
      simp [hB]
      exact fun e => hAB (Eq.symm e)

/-- Witness for C2 at concrete keys `keyA ≠ keyB`. -/
theorem setExclusiveAffinities_terms_and_exclusion_witness :
    termMatches (exclusiveAntiAffinityTerm "keyA" "rack")
        [(GroupUniqueHashLabelKey, "keyA")] = false ∧
    termMatches (exclusiveAntiAffinityTerm "keyA" "rack")
        [(GroupUniqueHashLabelKey, "keyB")] = true := by
  have h := setExclusiveAffinities_terms_and_exclusion podLeaderFresh "keyA"
  exact ⟨(h.2 "keyA" "keyB" [(GroupUniqueHashLabelKey, "keyA")] "rack" (by decide)).1 (by decide),
         (h.2 "keyA" "keyB" [(GroupUniqueHashLabelKey, "keyB")] "rack" (by decide)).2 (by decide)⟩

/-- C3.  A pod with no group-membership label passes through both webhook
paths unmodified: `Default` returns the identical pod (no labels,
annotations, affinity or env changes) and `validate` reports no warning
and no error. -/
theorem default_skips_nonmember (E : Externals) (pod : Pod)
    (h : mapLookup pod.labels SetNameLabelKey = none) :
    PodWebhook.Default E (RuntimeObject.pod pod) = Except.ok (RuntimeObject.pod pod) ∧
    PodWebhook.defaultPod E pod = Except.ok pod ∧
    PodWebhook.validate (RuntimeObject.pod pod) = (none, none) := by
  have h1 : PodWebhook.defaultPod E pod = Except.ok pod := by
    unfold PodWebhook.defaultPod
    rw [h]
  refine ⟨?_, h1, ?_⟩
  · simp [PodWebhook.Default, h1, Except.map]
  · simp [PodWebhook.validate, h]

/-- Witness for C3 on a concrete unlabeled pod. -/
theorem default_skips_nonmember_witness :
    PodWebhook.Default extLeader (RuntimeObject.pod podPlain)
        = Except.ok (RuntimeObject.pod podPlain) ∧
    PodWebhook.defaultPod extLeader podPlain = Except.ok podPlain ∧
    PodWebhook.validate (RuntimeObject.pod podPlain) = (none, none) :=
  default_skips_nonmember extLeader podPlain rfl

/-- C9.  `SetExclusiveAffinities` is total over absent affinity
substructures: the result always carries all three structures, and when
`affinity`, `podAffinity` or `podAntiAffinity` is absent the function
behaves exactly as if a fresh default had been constructed there first. -/
theorem setExclusiveAffinities_total_absent (pod : Pod) (key : String) :
    (∃ aff pa paa,
      (SetExclusiveAffinities pod key).spec.affinity = some aff ∧
      aff.podAffinity = some pa ∧ aff.podAntiAffinity = some paa) ∧
    (pod.spec.affinity = none →
      SetExclusiveAffinities pod key =
        SetExclusiveAffinities
          { pod with spec := { pod.spec with affinity := some {} } } key) ∧
    (∀ aff, pod.spec.affinity = some aff → aff.podAffinity = none →
      SetExclusiveAffinities pod key =
        SetExclusiveAffinities
          { pod with spec :=
              { pod.spec with affinity := some { aff with podAffinity := some {} } } } key) ∧
    (∀ aff, pod.spec.affinity = some aff → aff.podAntiAffinity = none →
      SetExclusiveAffinities pod key =
        SetExclusiveAffinities
          { pod with spec :=
              { pod.spec with affinity := some { aff with podAntiAffinity := some {} } } } key) := by
  refine ⟨⟨_, _, _, rfl, rfl, rfl⟩, ?_, ?_, ?_⟩
  · intro h
    simp [SetExclusiveAffinities, h]
  · intro aff h hpa
    simp [SetExclusiveAffinities, h, hpa]
  · intro aff h hpaa
    simp [SetExclusiveAffinities, h, hpaa]

/-- Witness for C9 on a pod with wholly absent affinity. -/
theorem setExclusiveAffinities_total_absent_witness :
    SetExclusiveAffinities podLeaderFresh "k" =
      SetExclusiveAffinities
        { podLeaderFresh with spec := { podLeaderFresh.spec with affinity := some {} } } "k" :=
  (setExclusiveAffinities_total_absent podLeaderFresh "k").2.1 rfl

/-- C10.  The validating path never rejects a Pod: `validate`,
`ValidateCreate`, `ValidateUpdate` and `ValidateDelete` all return nil
warnings and nil error on every Pod (labeled or not); the only validation
error arises for an object that is not a Pod. -/
theorem validate_never_rejects_pod :
    (∀ pod : Pod, PodWebhook.validate (RuntimeObject.pod pod) = (none, none)) ∧
    (∀ pod : Pod, PodWebhook.ValidateCreate (RuntimeObject.pod pod) = (none, none)) ∧
    (∀ o o' : RuntimeObject, PodWebhook.ValidateUpdate o o' = (none, none)) ∧
    (∀ o : RuntimeObject, PodWebhook.ValidateDelete o = (none, none)) ∧
    (∀ t : String, PodWebhook.validate (RuntimeObject.other t) =
       (none, some ("expected a Pod but got a " ++ t))) := by
  refine ⟨fun pod => ?_, fun pod => ?_, fun o o' => rfl, fun o => rfl, fun t => rfl⟩
  · simp only [PodWebhook.validate]
    cases mapLookup pod.labels SetNameLabelKey <;> rfl
  · simp only [PodWebhook.ValidateCreate, PodWebhook.validate]
    cases mapLookup pod.labels SetNameLabelKey <;> rfl

/-! ## Frame lemmas for the `Default` pipeline -/

@[simp]
theorem groupKeySteps_name (E : Externals) (p : Pod) :
    (groupKeySteps E p).name = p.name := by
  unfold groupKeySteps
  cases mapLookup p.labels GroupUniqueHashLabelKey <;> simp

@[simp]
theorem groupKeySteps_ns (E : Externals) (p : Pod) :
    (groupKeySteps E p).ns = p.ns := by
  unfold groupKeySteps
  cases mapLookup p.labels GroupUniqueHashLabelKey <;> simp

@[simp]
theorem groupKeySteps_annotations (E : Externals) (p : Pod) :
    (groupKeySteps E p).annotations = p.annotations := by
  unfold groupKeySteps
  cases mapLookup p.labels GroupUniqueHashLabelKey <;> simp

@[simp]
theorem groupKeySteps_containers (E : Externals) (p : Pod) :
    (groupKeySteps E p).spec.containers = p.spec.containers := by
  unfold groupKeySteps
  cases mapLookup p.labels GroupUniqueHashLabelKey <;> simp

/-- `groupKeySteps` leaves every label other than the group key untouched. -/
theorem groupKeySteps_labels_lookup_ne (E : Externals) (p : Pod) (k : String)
    (h : k ≠ GroupUniqueHashLabelKey) :
    mapLookup (groupKeySteps E p).labels k = mapLookup p.labels k := by
  unfold groupKeySteps
  cases hg : mapLookup p.labels GroupUniqueHashLabelKey <;>
    simp [mapLookup_mapInsert_ne _ _ _ _ h]

/-- After `groupKeySteps` the group key label holds the pre-existing value
when there was one, and the generated hash otherwise. -/
theorem groupKeySteps_groupKey (E : Externals) (p : Pod) :
    mapLookup (groupKeySteps E p).labels GroupUniqueHashLabelKey =
      some ((mapLookup p.labels GroupUniqueHashLabelKey).getD
        (genGroupUniqueKey E.sha1Hash p.ns p.name)) := by
  unfold groupKeySteps
  cases hg : mapLookup p.labels GroupUniqueHashLabelKey <;> simp [hg]

/-- Metadata and containers surviving a successful `leaderSteps`. -/
theorem leaderSteps_ok_frame (E : Externals) (pod r : Pod)
    (h : leaderSteps E pod = Except.ok r) :
    r.name = pod.name ∧ r.ns = pod.ns ∧ r.annotations = pod.annotations ∧
    r.spec.containers = pod.spec.containers := by
  unfold leaderSteps at h
  cases hgi : mapLookup pod.labels GroupIndexLabelKey with
  | some v =>
    rw [hgi] at h
    simp only [Except.bind, Except.ok.injEq] at h
    subst h
    simp
  | none =>
    rw [hgi] at h
    by_cases hp : (GetParentNameAndOrdinal pod.name).2 = -1
    · rw [if_pos hp] at h
      simp [Except.bind] at h
    · rw [if_neg hp] at h
      simp only [Except.bind, Except.ok.injEq] at h
      subst h
      simp

/-- Metadata and containers surviving a successful `workerSteps`. -/
theorem workerSteps_ok_frame (pod r : Pod)
    (h : workerSteps pod = Except.ok r) :
    r.name = pod.name ∧ r.ns = pod.ns ∧ r.annotations = pod.annotations ∧
    r.spec.containers = pod.spec.containers := by
  unfold workerSteps at h
  by_cases hp : (GetParentNameAndOrdinal pod.name).2 = -1
  · rw [if_pos hp] at h
    simp at h
  · rw [if_neg hp] at h
    simp only [Except.ok.injEq] at h
    subst h
    simp

/-- Metadata and labels surviving a successful `tpuStep`. -/
theorem tpuStep_ok_frame (E : Externals) (pod r : Pod)
    (h : tpuStep E pod = Except.ok r) :
    r.name = pod.name ∧ r.ns = pod.ns ∧ r.labels = pod.labels ∧
    r.annotations = pod.annotations := by
  unfold tpuStep at h
  split at h
  · split at h
    · simp at h
    · split at h
      · simp at h
      · split at h
        · simp at h
        · simp only [Except.ok.injEq] at h
          subst h
          simp
  · simp only [Except.ok.injEq] at h
    subst h
    simp

/-- When the pod does not request TPUs the injection step is the identity. -/
theorem tpuStep_not_requested (E : Externals) (pod : Pod)
    (h : E.podRequestsTPUs pod.spec.containers = false) :
    tpuStep E pod = Except.ok pod := by
  simp [tpuStep, h]

/-- When the pod requests TPUs but the size annotation is missing the
injection step fails. -/
theorem tpuStep_missing_size (E : Externals) (pod : Pod)
    (ht : E.podRequestsTPUs pod.spec.containers = true)
    (hs : mapLookup pod.annotations SizeAnnotationKey = none) :
    tpuStep E pod =
      Except.error ("size annotation is unexpectedly missing for pod " ++ pod.name) := by
  simp [tpuStep, ht, hs]

/-- Metadata and containers surviving the successful role branch of
`Default`. -/
theorem branch_ok_frame (E : Externals) (pod p1 : Pod)
    (h : (if E.leaderPod pod = true then leaderSteps E pod else workerSteps pod)
           = Except.ok p1) :
    p1.name = pod.name ∧ p1.ns = pod.ns ∧ p1.annotations = pod.annotations ∧
    p1.spec.containers = pod.spec.containers := by
  by_cases hL : E.leaderPod pod = true
  · rw [if_pos hL] at h
    exact leaderSteps_ok_frame E pod p1 h
  · rw [if_neg hL] at h
    exact workerSteps_ok_frame pod p1 h

/-- A group-member pod and a pod name that fails to parse, with the
group-index label already present. -/
def podWorkerBad : Pod :=
  { name := "nodash", ns := "d", labels := [(SetNameLabelKey, "x")], annotations := [] }

/-- C4 counterexample.  A group-member leader pod whose name does not
parse as an ordinal is admitted without error when its group-index label
is already present: `Default` skips the parse entirely and returns the pod
unchanged, contradicting the claim that such a request always fails. -/
theorem unparsable_leader_admitted_cex :
    mapLookup podLeaderLabeled.labels SetNameLabelKey = some "x" ∧
    extLeader.leaderPod podLeaderLabeled = true ∧
    (GetParentNameAndOrdinal podLeaderLabeled.name).2 = -1 ∧
    PodWebhook.defaultPod extLeader podLeaderLabeled = Except.ok podLeaderLabeled :=
  ⟨rfl, rfl, by decide, rfl⟩

/-- C4 amended.  A group-member pod whose name does not parse as
`<prefix>-<non-negative integer>` is rejected by `Default` with a parse
error whenever the parse is actually reached: always for workers, and for
leaders exactly when the group-index label is not already present (an
already-labeled leader skips the parse). -/
theorem default_unparsable_name_rejected (E : Externals) (pod : Pod) (s : String)
    (hm : mapLookup pod.labels SetNameLabelKey = some s)
    (hp : (GetParentNameAndOrdinal pod.name).2 = -1)
    (hl : E.leaderPod pod = false ∨ mapLookup pod.labels GroupIndexLabelKey = none) :
    PodWebhook.defaultPod E pod =
      Except.error ("parsing pod ordinal for pod " ++ pod.name) := by
  simp only [PodWebhook.defaultPod, hm]
  by_cases hL : E.leaderPod pod = true
  · have hgi : mapLookup pod.labels GroupIndexLabelKey = none := by
      rcases hl with h1 | h1
      · rw [h1] at hL
        cases hL
      · exact h1
    simp [hL, leaderSteps, hgi, hp, Except.bind]
  · simp [hL, workerSteps, hp, Except.bind]

/-- Witness for the amended C4 on a worker pod with an unparsable name. -/
theorem default_unparsable_name_rejected_witness :
    PodWebhook.defaultPod extWorker podWorkerBad =
      Except.error ("parsing pod ordinal for pod " ++ podWorkerBad.name) :=
  default_unparsable_name_rejected extWorker podWorkerBad "x" rfl (by decide) (Or.inl rfl)

/-- C5.  For a group-member pod: when its containers request TPUs and the
size annotation is absent, `Default` rejects the request with an error;
when the pod does not request TPUs, the injection step is skipped and the
containers (hence the environment variables) of an admitted pod are
exactly those of the incoming pod. -/
theorem tpu_size_gate (E : Externals) (pod : Pod) (s : String)
    (hm : mapLookup pod.labels SetNameLabelKey = some s) :
    (E.podRequestsTPUs pod.spec.containers = true →
       mapLookup pod.annotations SizeAnnotationKey = none →
       ∃ e, PodWebhook.defaultPod E pod = Except.error e) ∧
    (E.podRequestsTPUs pod.spec.containers = false →
       ∀ r, PodWebhook.defaultPod E pod = Except.ok r →
         r.spec.containers = pod.spec.containers) := by
  have hd : PodWebhook.defaultPod E pod =
      (if E.leaderPod pod = true then leaderSteps E pod else workerSteps pod).bind
        (tpuStep E) := by
    simp only [PodWebhook.defaultPod, hm]
  constructor
  · intro ht hs
    cases hbr : (if E.leaderPod pod = true then leaderSteps E pod else workerSteps pod) with
    | error e =>
      exact ⟨e, by rw [hd, hbr]; rfl⟩
    | ok p1 =>
      obtain ⟨hn, _, han, hc⟩ := branch_ok_frame E pod p1 hbr
      refine ⟨"size annotation is unexpectedly missing for pod " ++ pod.name, ?_⟩
      rw [hd, hbr]
      have := tpuStep_missing_size E p1 (by rw [hc]; exact ht) (by rw [han]; exact hs)
      rw [hn] at this
      simpa [Except.bind] using this
  · intro ht r hr
    rw [hd] at hr
    cases hbr : (if E.leaderPod pod = true then leaderSteps E pod else workerSteps pod) with
    | error e =>
      rw [hbr] at hr
      simp [Except.bind] at hr
    | ok p1 =>
      rw [hbr] at hr
      simp only [Except.bind] at hr
      obtain ⟨_, _, _, hc⟩ := branch_ok_frame E pod p1 hbr
      rw [tpuStep_not_requested E p1 (by rw [hc]; exact ht)] at hr
      cases hr
      exact hc

/-- Witness for C5: a TPU-requesting leader with no size annotation is
rejected, and a non-TPU worker keeps its containers unchanged. -/
theorem tpu_size_gate_witness :
    (∃ e, PodWebhook.defaultPod extTPU podLeaderFresh = Except.error e) ∧
    ({ podWorkerRelabel with
        labels := [(SetNameLabelKey, "x"), (WorkerIndexLabelKey, "3")] } : Pod).spec.containers
      = podWorkerRelabel.spec.containers := by
  constructor
  · exact (tpu_size_gate extTPU podLeaderFresh "sample" rfl).1 rfl rfl
  · exact (tpu_size_gate extWorker podWorkerRelabel "x" rfl).2 rfl _ rfl

/-- A fresh leader pod without the exclusive-topology annotation, and the
pod `Default` turns it into. -/
def podLeaderPlain : Pod :=
  { name := "sample-0", ns := "default", labels := [(SetNameLabelKey, "sample")],
    annotations := [] }

/-- The result of admitting `podLeaderPlain` under `extLeader`. -/
def podLeaderPlainResult : Pod :=
  { name := "sample-0", ns := "default",
    labels := [(SetNameLabelKey, "sample"), (GroupIndexLabelKey, "0"),
               (GroupUniqueHashLabelKey, "default/sample-0")],
    annotations := [] }

/-- C7.  For every admitted leader pod, the group unique key label is the
deterministic content-derived hash `genGroupUniqueKey` of the namespace
and pod name when the label was absent, and is the unchanged pre-existing
value when the label was already present (never recomputed). -/
theorem groupKey_hash_or_reused (E : Externals) (pod r : Pod) (s : String)
    (hm : mapLookup pod.labels SetNameLabelKey = some s)
    (hL : E.leaderPod pod = true)
    (h : PodWebhook.defaultPod E pod = Except.ok r) :
    (mapLookup pod.labels GroupUniqueHashLabelKey = none →
       mapLookup r.labels GroupUniqueHashLabelKey =
         some (genGroupUniqueKey E.sha1Hash pod.ns pod.name)) ∧
    (∀ v, mapLookup pod.labels GroupUniqueHashLabelKey = some v →
       mapLookup r.labels GroupUniqueHashLabelKey = some v) := by
  have hd : PodWebhook.defaultPod E pod = (leaderSteps E pod).bind (tpuStep E) := by
    simp only [PodWebhook.defaultPod, hm, hL, if_pos]
  rw [hd] at h
  cases he : leaderSteps E pod with
  | error e =>
    rw [he] at h
    simp [Except.bind] at h
  | ok p1 =>
    rw [he] at h
    simp only [Except.bind] at h
    have hlab : r.labels = p1.labels := (tpuStep_ok_frame E p1 r h).2.2.1
    have hp1 : mapLookup p1.labels GroupUniqueHashLabelKey =
        some ((mapLookup pod.labels GroupUniqueHashLabelKey).getD
          (genGroupUniqueKey E.sha1Hash pod.ns pod.name)) := by
      unfold leaderSteps at he
      cases hgi : mapLookup pod.labels GroupIndexLabelKey with
      | some v =>
        rw [hgi] at he
        simp only [Except.bind, Except.ok.injEq] at he
        subst he
        exact groupKeySteps_groupKey E pod
      | none =>
        rw [hgi] at he
        by_cases hpz : (GetParentNameAndOrdinal pod.name).2 = -1
        · rw [if_pos hpz] at he
          simp [Except.bind] at he
        · rw [if_neg hpz] at he
          simp only [Except.bind, Except.ok.injEq] at he
          subst he
          rw [groupKeySteps_groupKey]
          rw [mapLookup_mapInsert_ne _ _ _ _ (by decide)]
    constructor
    · intro hnone
      rw [hlab, hp1, hnone]
      rfl
    · intro v hv
      rw [hlab, hp1, hv]
      rfl

/-- Witness for C7: a fresh leader gets the hash of `namespace/name`. -/
theorem groupKey_hash_or_reused_witness :
    mapLookup podLeaderPlainResult.labels GroupUniqueHashLabelKey =
      some (genGroupUniqueKey extLeader.sha1Hash podLeaderPlain.ns podLeaderPlain.name) :=
  (groupKey_hash_or_reused extLeader podLeaderPlain podLeaderPlainResult "sample"
    rfl rfl rfl).1 rfl

/-- C8 counterexample.  `Default` does overwrite an already-present worker
index label: the incoming worker carries worker-index `7`, its name parses
to ordinal `3`, and the admitted pod carries worker-index `3`. -/
theorem workerIndex_overwritten_cex :
    mapLookup podWorkerRelabel.labels SetNameLabelKey = some "x" ∧
    mapLookup podWorkerRelabel.labels WorkerIndexLabelKey = some "7" ∧
    PodWebhook.defaultPod extWorker podWorkerRelabel =
      Except.ok { podWorkerRelabel with
        labels := [(SetNameLabelKey, "x"), (WorkerIndexLabelKey, "3")] } :=
  ⟨rfl, rfl, rfl⟩

/-- C8 amended.  The leader identity labels (group index and group unique
key) are never overwritten by `Default` when already present; the worker
index label, by contrast, is recomputed from the pod name and assigned
unconditionally on every admission, replacing any pre-existing value. -/
theorem identity_labels_once_amended (E : Externals) (pod r : Pod) (s : String)
    (hm : mapLookup pod.labels SetNameLabelKey = some s)
    (h : PodWebhook.defaultPod E pod = Except.ok r) :
    (E.leaderPod pod = true →
      (∀ v, mapLookup pod.labels GroupIndexLabelKey = some v →
         mapLookup r.labels GroupIndexLabelKey = some v) ∧
      (∀ v, mapLookup pod.labels GroupUniqueHashLabelKey = some v →
         mapLookup r.labels GroupUniqueHashLabelKey = some v)) ∧
    (E.leaderPod pod = false →
      mapLookup r.labels WorkerIndexLabelKey =
        some (sprintInt (GetParentNameAndOrdinal pod.name).2)) := by
  constructor
  · intro hL
    have hd : PodWebhook.defaultPod E pod = (leaderSteps E pod).bind (tpuStep E) := by
      simp only [PodWebhook.defaultPod, hm, hL, if_pos]
    rw [hd] at h
    cases he : leaderSteps E pod with
    | error e =>
      rw [he] at h
      simp [Except.bind] at h
    | ok p1 =>
      rw [he] at h
      simp only [Except.bind] at h
      have hlab : r.labels = p1.labels := (tpuStep_ok_frame E p1 r h).2.2.1
      constructor
      · intro v hv
        unfold leaderSteps at he
        rw [hv] at he
        simp only [Except.bind, Except.ok.injEq] at he
        subst he
        rw [hlab, groupKeySteps_labels_lookup_ne _ _ _ (by decide)]
        exact hv
      · intro v hv
        unfold leaderSteps at he
        cases hgi : mapLookup pod.labels GroupIndexLabelKey with
        | some w =>
          rw [hgi] at he
          simp only [Except.bind, Except.ok.injEq] at he
          subst he
          rw [hlab, groupKeySteps_groupKey, hv]
          rfl
        | none =>
          rw [hgi] at he
          by_cases hpz : (GetParentNameAndOrdinal pod.name).2 = -1
          · rw [if_pos hpz] at he
            simp [Except.bind] at he
          · rw [if_neg hpz] at he
            simp only [Except.bind, Except.ok.injEq] at he
            subst he
            rw [hlab, groupKeySteps_groupKey,
              mapLookup_mapInsert_ne _ _ _ _ (by decide), hv]
            rfl
  · intro hL
    have hd : PodWebhook.defaultPod E pod = (workerSteps pod).bind (tpuStep E) := by
      simp only [PodWebhook.defaultPod, hm, hL]
      rfl
    rw [hd] at h
    unfold workerSteps at h
    by_cases hpz : (GetParentNameAndOrdinal pod.name).2 = -1
    · rw [if_pos hpz] at h
      simp [Except.bind] at h
    · rw [if_neg hpz] at h
      simp only [Except.bind] at h
      have hlab := (tpuStep_ok_frame E _ r h).2.2.1
      rw [hlab]
      simp

/-- Witness for the amended C8: a labeled leader keeps both labels, and an
admitted worker carries the parsed ordinal. -/
theorem identity_labels_once_amended_witness :
    mapLookup podLeaderLabeled.labels GroupIndexLabelKey = some "0" ∧
    mapLookup ({ podWorkerRelabel with
        labels := [(SetNameLabelKey, "x"), (WorkerIndexLabelKey, "3")] } : Pod).labels
      WorkerIndexLabelKey = some (sprintInt (GetParentNameAndOrdinal podWorkerRelabel.name).2) := by
  constructor
  · exact ((identity_labels_once_amended extLeader podLeaderLabeled podLeaderLabeled "x"
      rfl rfl).1 rfl).1 "0" rfl
  · exact (identity_labels_once_amended extWorker podWorkerRelabel
      { podWorkerRelabel with
        labels := [(SetNameLabelKey, "x"), (WorkerIndexLabelKey, "3")] } "x" rfl rfl).2 rfl

/-! ## Decimal numeral and last-dash lemmas for the identity assigner -/

theorem digitChar_toNat_sub (d : Nat) (hd : d < 10) :
    (Nat.digitChar d).toNat - 48 = d := by
  interval_cases d <;> rfl

theorem digitChar_isDigit (d : Nat) (hd : d < 10) :
    (Nat.digitChar d).isDigit = true := by
  interval_cases d <;> rfl

theorem isDigit_ne_dash (c : Char) (h : c.isDigit = true) : c ≠ '-' := by
  intro e
  rw [e] at h
  exact absurd h (by decide)

theorem digitsToNat_append (ds : List Char) (c : Char) :
    digitsToNat (ds ++ [c]) = 10 * digitsToNat ds + (c.toNat - 48) := by
  simp [digitsToNat, List.foldl_append]

theorem digitsToNat_natToDigits (n : Nat) : digitsToNat (natToDigits n) = n := by
  induction n using Nat.strong_induction_on with
  | _ n ih =>
    rw [natToDigits]
    by_cases h : n < 10
    · rw [dif_pos h]
      simp [digitsToNat, digitChar_toNat_sub n h]
    · rw [dif_neg h]
      rw [digitsToNat_append, ih (n / 10) (Nat.div_lt_self (by omega) (by omega)),
        digitChar_toNat_sub _ (Nat.mod_lt _ (by omega))]
      omega

theorem mem_natToDigits_isDigit (n : Nat) : ∀ c ∈ natToDigits n, c.isDigit = true := by
  induction n using Nat.strong_induction_on with
  | _ n ih =>
    rw [natToDigits]
    by_cases h : n < 10
    · rw [dif_pos h]
      intro c hc
      simp only [List.mem_singleton] at hc
      subst hc
      exact digitChar_isDigit n h
    · rw [dif_neg h]
      intro c hc
      rcases List.mem_append.1 hc with h1 | h1
      · exact ih (n / 10) (Nat.div_lt_self (by omega) (by omega)) c h1
      · simp only [List.mem_singleton] at h1
        subst h1
        exact digitChar_isDigit _ (Nat.mod_lt _ (by omega))

theorem natToDigits_ne_nil (n : Nat) : natToDigits n ≠ [] := by
  rw [natToDigits]
  by_cases h : n < 10
  · rw [dif_pos h]
    exact List.cons_ne_nil _ _
  · rw [dif_neg h]
    simp

theorem splitLastDash_eq_none (l : List Char) (h : '-' ∉ l) :
    splitLastDash l = none := by
  induction l with
  | nil => rfl
  | cons c rest ih =>
    have hc : c ≠ '-' := fun e => h (by rw [e]; exact List.mem_cons_self _ _)
    have hr : '-' ∉ rest := fun hm => h (List.mem_cons_of_mem _ hm)
    unfold splitLastDash
    rw [ih hr]
    simp [hc]

theorem splitLastDash_append (p s : List Char) (h : '-' ∉ s) :
    splitLastDash (p ++ '-' :: s) = some (p, s) := by
  induction p with
  | nil =>
    simp only [List.nil_append]
    unfold splitLastDash
    rw [splitLastDash_eq_none s h]
    simp
  | cons c p' ih =>
    simp only [List.cons_append]
    unfold splitLastDash
    rw [ih]

theorem string_append_dash_data (parent : String) (s : List Char) :
    (parent ++ "-" ++ String.mk s).data = parent.data ++ '-' :: s := by
  cases parent with
  | mk l =>
    show (l ++ ['-']) ++ s = l ++ '-' :: s
    rw [List.append_assoc]
    rfl

/-- C6.  The identity assigner parses `<parent>-<k>`: for every parent
string and every `k ≥ 0` written in decimal it returns `(parent, k)`;
when the part after the last dash is not a non-empty digit string, or the
name has no dash at all, it returns the not-found ordinal `-1`. -/
theorem getParentNameAndOrdinal_spec :
    (∀ (parent : String) (k : Nat),
       GetParentNameAndOrdinal (parent ++ "-" ++ String.mk (natToDigits k))
         = (parent, (k : Int))) ∧
    (∀ (parent : String) (tail : List Char), '-' ∉ tail →
       ¬(tail ≠ [] ∧ tail.all Char.isDigit = true) →
       (GetParentNameAndOrdinal (parent ++ "-" ++ String.mk tail)).2 = -1) ∧
    (∀ name : String, '-' ∉ name.data → (GetParentNameAndOrdinal name).2 = -1) := by
  refine ⟨?_, ?_, ?_⟩
  · intro parent k
    have hnd : '-' ∉ natToDigits k := fun hmem =>
      isDigit_ne_dash '-' (mem_natToDigits_isDigit k '-' hmem) rfl
    simp only [GetParentNameAndOrdinal, string_append_dash_data,
      splitLastDash_append _ _ hnd]
    rw [if_pos ⟨natToDigits_ne_nil k,
      List.all_eq_true.2 (fun c hc => mem_natToDigits_isDigit k c hc)⟩]
    rw [digitsToNat_natToDigits]
  · intro parent tail hnd hbad
    simp only [GetParentNameAndOrdinal, string_append_dash_data,
      splitLastDash_append _ _ hnd]
    rw [if_neg hbad]
  · intro name h
    simp only [GetParentNameAndOrdinal, splitLastDash_eq_none name.data h]

/-- Witness for C6 on the name `sample-x` (non-numeric suffix). -/
theorem getParentNameAndOrdinal_spec_witness :
    (GetParentNameAndOrdinal ("sample" ++ "-" ++ String.mk ['x'])).2 = -1 :=
  getParentNameAndOrdinal_spec.2.1 "sample" ['x'] (by decide) (by decide)

end LWS
